import Mathlib

/-!
Shallow embedding of the 6502 CPU core of `src/src/cpu.rs` (with the flat-RAM
bus of `src/src/bus.rs` folded into the CPU state).  Machine integers are
modelled as `Nat` with explicit wrapping: `u8` arithmetic wraps modulo 2^8 and
`u16` arithmetic modulo 2^16, matching the release-mode (wrapping) semantics of
the Rust source and the specification's stated invariant that all register and
address arithmetic wraps.
-/

namespace Nes

/-- Wrapping to 8 bits, the behaviour of Rust `u8` arithmetic in release mode. -/
def wrap8 (n : Nat) : Nat := n % 256

/-- Wrapping to 16 bits, the behaviour of Rust `u16` arithmetic in release mode. -/
def wrap16 (n : Nat) : Nat := n % 65536

/-- Rust shift-left at type `u8`: the shift amount is reduced modulo the bit
width and the result is truncated to 8 bits (the wrapping semantics of an
overflowing shift; a shift by 8 therefore leaves the value unchanged instead
of producing a high byte). -/
def u8shl (v k : Nat) : Nat := wrap8 (v <<< (k % 8))

/-- StatusFlags::CARRY, bit 0 of the status register. -/
def CARRY : Nat := 1
/-- StatusFlags::ZERO, bit 1. -/
def ZERO : Nat := 2
/-- StatusFlags::INTERRUPT_DISABLE, bit 2. -/
def INTERRUPT_DISABLE : Nat := 4
/-- StatusFlags::DECIMAL_MODE, bit 3. -/
def DECIMAL_MODE : Nat := 8
/-- StatusFlags::BREAK, bit 4. -/
def BREAK : Nat := 16
/-- StatusFlags::UNUSED, bit 5. -/
def UNUSED : Nat := 32
/-- StatusFlags::OVERFLOW, bit 6. -/
def OVERFLOW : Nat := 64
/-- StatusFlags::NEGATIVE, bit 7. -/
def NEGATIVE : Nat := 128

/-- CPU state of `struct Cpu` in `cpu.rs`, with the 64 KiB RAM of `Bus`
inlined as the field `ram` (the bus is a plain byte array: `read` returns
`ram[addr]`, `write` stores into it). -/
structure Cpu where
  a : Nat
  x : Nat
  y : Nat
  stkp : Nat
  pc : Nat
  status : Nat
  fetched : Nat
  addr_abs : Nat
  addr_rel : Nat
  opcode : Nat
  cycles : Nat
  ram : Nat → Nat

/-- Bus read as the CPU sees it (`Cpu::read` / `Bus::read`): plain RAM lookup. -/
def read (s : Cpu) (addr : Nat) : Nat := s.ram addr

/-- Bus write (`Cpu::write` / `Bus::write`): store a byte into RAM. -/
def write (s : Cpu) (addr d : Nat) : Cpu :=
  { s with ram := fun i => if i = addr then d else s.ram i }

/-- Cpu::get_flag: bitflags `contains`, true iff all bits of `f` are set. -/
def get_flag (s : Cpu) (f : Nat) : Bool := decide (s.status &&& f = f)

/-- Cpu::set_flag: insert the flag bits when `v`, remove them otherwise. -/
def set_flag (s : Cpu) (f : Nat) (v : Bool) : Cpu :=
  if v then { s with status := s.status ||| f }
  else { s with status := s.status &&& (255 ^^^ f) }

/-- The `AddressingMode` enum of `cpu.rs`. -/
inductive AddressingMode where
  | Immediate
  | ZeroPage
  | ZeroPageX
  | ZeroPageY
  | Absolute
  | AbsoluteX
  | AbsoluteY
  | Indirect
  | IndirectX
  | IndirectY
  | Accumulator
  | Implied
  | Relative
deriving DecidableEq

/-- Operation tag of a dispatch-table entry (only the mnemonics needed by the
table entries modelled below). -/
inductive Operation where
  | LDA
  | NOP
  | XXX
deriving DecidableEq

/-- An entry of the 256-entry dispatch table (`Instruction` in
`src/instructions.rs`): addressing mode, operation tag, base cycle count. -/
structure Instruction where
  op : Operation
  mode : AddressingMode
  cycles : Nat

/-- Modelled from the spec: the dispatch table `LOOKUP` lives in
`src/instructions.rs`, which is not among the provided sources.  The spec fixes
the bindings to the canonical MOS 6502 map (opcode `0xA9` is LDA immediate with
2 base cycles, `0xEA` is NOP implied with 2 cycles) and maps unused opcodes to
`(XXX, IMP, 2)`. -/
def LOOKUP (opc : Nat) : Instruction :=
  if opc = 0xA9 then ⟨Operation.LDA, AddressingMode.Immediate, 2⟩
  else if opc = 0xEA then ⟨Operation.NOP, AddressingMode.Implied, 2⟩
  else ⟨Operation.XXX, AddressingMode.Implied, 2⟩

/-- Cpu::addr_imp: latch the accumulator into `fetched`. -/
def addr_imp (s : Cpu) : Nat × Cpu :=
  (0, { s with fetched := s.a })

/-- Cpu::addr_imm: `pc += 1` first, then `addr_abs := pc` (the incremented
value). -/
def addr_imm (s : Cpu) : Nat × Cpu :=
  let s := { s with pc := wrap16 (s.pc + 1) }
  (0, { s with addr_abs := s.pc })

/-- Cpu::addr_zp0. -/
def addr_zp0 (s : Cpu) : Nat × Cpu :=
  let s := { s with addr_abs := read s s.pc }
  let s := { s with pc := wrap16 (s.pc + 1) }
  (0, { s with addr_abs := s.addr_abs &&& 0x00FF })

/-- Cpu::addr_zpx: the operand byte and `x` are added at `u8` width. -/
def addr_zpx (s : Cpu) : Nat × Cpu :=
  let s := { s with addr_abs := wrap8 (read s s.pc + s.x) }
  let s := { s with pc := wrap16 (s.pc + 1) }
  (0, { s with addr_abs := s.addr_abs &&& 0x00FF })

/-- Cpu::addr_zpy. -/
def addr_zpy (s : Cpu) : Nat × Cpu :=
  let s := { s with addr_abs := wrap8 (read s s.pc + s.y) }
  let s := { s with pc := wrap16 (s.pc + 1) }
  (0, { s with addr_abs := s.addr_abs &&& 0x00FF })

/-- Cpu::addr_rel (named with a suffix because `addr_rel` is also the state
field): read the offset byte and sign-extend it to 16 bits. -/
def addr_rel_m (s : Cpu) : Nat × Cpu :=
  let s := { s with addr_rel := read s s.pc }
  let s := { s with pc := wrap16 (s.pc + 1) }
  if s.addr_rel &&& 0x80 ≠ 0 then (0, { s with addr_rel := s.addr_rel ||| 0xFF00 })
  else (0, s)

/-- Cpu::addr_abs (named with a suffix because `addr_abs` is also the state
field): absolute addressing, little-endian operand. -/
def addr_abs_m (s : Cpu) : Nat × Cpu :=
  let lo := read s s.pc
  let s := { s with pc := wrap16 (s.pc + 1) }
  let hi := read s s.pc
  let s := { s with pc := wrap16 (s.pc + 1) }
  (0, { s with addr_abs := (hi <<< 8) ||| lo })

/-- Cpu::addr_abx: absolute,X with page-cross flag. -/
def addr_abx (s : Cpu) : Nat × Cpu :=
  let lo := read s s.pc
  let s := { s with pc := wrap16 (s.pc + 1) }
  let hi := read s s.pc
  let s := { s with pc := wrap16 (s.pc + 1) }
  let s := { s with addr_abs := (hi <<< 8) ||| lo }
  let s := { s with addr_abs := wrap16 (s.addr_abs + s.x) }
  if s.addr_abs &&& 0xFF00 ≠ hi <<< 8 then (1, s) else (0, s)

/-- Cpu::addr_aby: absolute,Y with page-cross flag. -/
def addr_aby (s : Cpu) : Nat × Cpu :=
  let lo := read s s.pc
  let s := { s with pc := wrap16 (s.pc + 1) }
  let hi := read s s.pc
  let s := { s with pc := wrap16 (s.pc + 1) }
  let s := { s with addr_abs := (hi <<< 8) ||| lo }
  let s := { s with addr_abs := wrap16 (s.addr_abs + s.y) }
  if s.addr_abs &&& 0xFF00 ≠ hi <<< 8 then (1, s) else (0, s)

/-- Cpu::addr_ind.  In the source the whole expression
`(self.read(..) << 8) | self.read(ptr + 0)` is computed at type `u8` (the
`as u16` cast applies only afterwards), so the shift by 8 is `u8shl` and the
pointed-to high byte never reaches the high byte of `addr_abs`. -/
def addr_ind (s : Cpu) : Nat × Cpu :=
  let ptr_lo := read s s.pc
  let s := { s with pc := wrap16 (s.pc + 1) }
  let ptr_hi := read s s.pc
  let s := { s with pc := wrap16 (s.pc + 1) }
  let ptr := (ptr_hi <<< 8) ||| ptr_lo
  if ptr_lo = 0x00FF then
    (0, { s with addr_abs := u8shl (read s (ptr &&& 0xFF00)) 8 ||| read s (ptr + 0) })
  else
    (0, { s with addr_abs := u8shl (read s (wrap16 (ptr + 1))) 8 ||| read s (ptr + 0) })

/-- Cpu::addr_izx. -/
def addr_izx (s : Cpu) : Nat × Cpu :=
  let t := read s s.pc
  let s := { s with pc := wrap16 (s.pc + 1) }
  let lo := read s ((t + s.x) &&& 0x00FF)
  let hi := read s ((t + s.x + 1) &&& 0x00FF)
  (0, { s with addr_abs := (hi <<< 8) ||| lo })

/-- Cpu::addr_izy. -/
def addr_izy (s : Cpu) : Nat × Cpu :=
  let t := read s s.pc
  let s := { s with pc := wrap16 (s.pc + 1) }
  let lo := read s (t &&& 0x00FF)
  let hi := read s ((t + 1) &&& 0x00FF)
  let s := { s with addr_abs := (hi <<< 8) ||| lo }
  let s := { s with addr_abs := wrap16 (s.addr_abs + s.y) }
  if s.addr_abs &&& 0xFF00 ≠ hi <<< 8 then (1, s) else (0, s)

/-- Cpu::get_operand_address: dispatch on the addressing mode.  Note that the
`Accumulator` and `Implied` arms return 0 without calling `addr_imp` (and so
without touching `fetched`), exactly as in the source. -/
def get_operand_address (s : Cpu) (mode : AddressingMode) : Nat × Cpu :=
  match mode with
  | AddressingMode.Immediate => addr_imm s
  | AddressingMode.ZeroPage => addr_zp0 s
  | AddressingMode.ZeroPageX => addr_zpx s
  | AddressingMode.ZeroPageY => addr_zpy s
  | AddressingMode.Absolute => addr_abs_m s
  | AddressingMode.AbsoluteX => addr_abx s
  | AddressingMode.AbsoluteY => addr_aby s
  | AddressingMode.Indirect => addr_ind s
  | AddressingMode.IndirectX => addr_izx s
  | AddressingMode.IndirectY => addr_izy s
  | AddressingMode.Relative => addr_rel_m s
  | AddressingMode.Accumulator => (0, s)
  | AddressingMode.Implied => (0, s)

/-- Cpu::clock.  When `cycles == 0`: fetch the opcode, advance `pc`, load the
base cycle count from the table, run the addressing-mode decoder keeping its
flag in `add_cycles1`; the source then hardcodes `add_cycles2 = 0` (commented
"additional cycles for operation") and never invokes the table entry's
operation, adds `add_cycles1 & add_cycles2` to `cycles`, and finally
decrements `cycles`.  When `cycles != 0` it only decrements. -/
def clock (s : Cpu) : Cpu :=
  if s.cycles = 0 then
    let s := { s with opcode := read s s.pc }
    let s := { s with pc := wrap16 (s.pc + 1) }
    let s := { s with cycles := (LOOKUP s.opcode).cycles }
    let r := get_operand_address s (LOOKUP s.opcode).mode
    let add_cycles1 := r.1
    let s := r.2
    let add_cycles2 := 0
    let s := { s with cycles := wrap8 (s.cycles + (add_cycles1 &&& add_cycles2)) }
    { s with cycles := wrap8 (s.cycles + 255) }
  else
    { s with cycles := wrap8 (s.cycles + 255) }

/-- Cpu::reset: zero the registers, `stkp := 0xFD`, `status :=
StatusFlags::empty()` (all flag bits cleared), load `pc` from the vector at
`0xFFFC/0xFFFD`, clear the scratch latches, `cycles := 8`. -/
def reset (s : Cpu) : Cpu :=
  let s := { s with a := 0, x := 0, y := 0, stkp := 0xFD, status := 0 }
  let s := { s with addr_abs := 0xFFFC }
  let lo := read s (s.addr_abs + 0)
  let hi := read s (s.addr_abs + 1)
  let s := { s with pc := (hi <<< 8) ||| lo }
  { s with addr_rel := 0, addr_abs := 0, fetched := 0, cycles := 8 }

/-- Cpu::irq: honoured only when the I flag is clear; pushes `pc` then the
status byte (with B cleared, U and I set), loads `pc` from `0xFFFE/0xFFFF`,
and sets `cycles := 7`. -/
def irq (s : Cpu) : Cpu :=
  if get_flag s INTERRUPT_DISABLE = false then
    let s := write s (0x0100 + s.stkp) ((s.pc >>> 8) &&& 0x00FF)
    let s := { s with stkp := wrap8 (s.stkp + 255) }
    let s := write s (0x0100 + s.stkp) (s.pc &&& 0x00FF)
    let s := { s with stkp := wrap8 (s.stkp + 255) }
    let s := set_flag s BREAK false
    let s := set_flag s UNUSED true
    let s := set_flag s INTERRUPT_DISABLE true
    let s := write s (0x0100 + s.stkp) s.status
    let s := { s with stkp := wrap8 (s.stkp + 255) }
    let s := { s with addr_abs := 0xFFFE }
    let lo := read s (s.addr_abs + 0)
    let hi := read s (s.addr_abs + 1)
    let s := { s with pc := (hi <<< 8) ||| lo }
    { s with cycles := 7 }
  else s

/-- Cpu::nmi: like `irq` but unconditional, vector `0xFFFA/0xFFFB`,
`cycles := 8`. -/
def nmi (s : Cpu) : Cpu :=
  let s := write s (0x0100 + s.stkp) ((s.pc >>> 8) &&& 0x00FF)
  let s := { s with stkp := wrap8 (s.stkp + 255) }
  let s := write s (0x0100 + s.stkp) (s.pc &&& 0x00FF)
  let s := { s with stkp := wrap8 (s.stkp + 255) }
  let s := set_flag s BREAK false
  let s := set_flag s UNUSED true
  let s := set_flag s INTERRUPT_DISABLE true
  let s := write s (0x0100 + s.stkp) s.status
  let s := { s with stkp := wrap8 (s.stkp + 255) }
  let s := { s with addr_abs := 0xFFFA }
  let lo := read s (s.addr_abs + 0)
  let hi := read s (s.addr_abs + 1)
  let s := { s with pc := (hi <<< 8) ||| lo }
  { s with cycles := 8 }

/-- Cpu::fetch: read `fetched` from `addr_abs` unless the current opcode's
table entry is Implied. -/
def fetch (s : Cpu) : Cpu :=
  match (LOOKUP s.opcode).mode with
  | AddressingMode.Implied => s
  | _ => { s with fetched := read s s.addr_abs }

/-- Cpu::lda: fetch the operand, copy it into `a`, set Z and N; returns the
extra-cycle-eligible flag 1. -/
def lda (s : Cpu) : Nat × Cpu :=
  let s := fetch s
  let s := { s with a := s.fetched }
  let s := set_flag s ZERO (decide (s.a = 0))
  let s := set_flag s NEGATIVE (decide (s.a &&& 0x80 ≠ 0))
  (1, s)

/-- Cpu::pha: write `a` at `0x0100 + stkp`, then decrement `stkp` (wrapping at
`u8` width). -/
def pha (s : Cpu) : Nat × Cpu :=
  let s := write s (0x0100 + s.stkp) s.a
  (0, { s with stkp := wrap8 (s.stkp + 255) })

/-- Cpu::pla: increment `stkp` (wrapping), read `a` from `0x0100 + stkp`, set
Z and N. -/
def pla (s : Cpu) : Nat × Cpu :=
  let s := { s with stkp := wrap8 (s.stkp + 1) }
  let s := { s with a := read s (0x0100 + s.stkp) }
  let s := set_flag s ZERO (decide (s.a = 0))
  let s := set_flag s NEGATIVE (decide (s.a &&& 0x80 ≠ 0))
  (0, s)

/-- Cpu::php: push `status | BREAK | UNUSED`, then clear B and U in the
register, then decrement `stkp`. -/
def php (s : Cpu) : Nat × Cpu :=
  let s := write s (0x0100 + s.stkp) (s.status ||| BREAK ||| UNUSED)
  let s := set_flag s BREAK false
  let s := set_flag s UNUSED false
  (0, { s with stkp := wrap8 (s.stkp + 255) })

/-- Cpu::brk: advance `pc`, set I, push `pc` (high then low), set B, push the
status byte, clear B, load `pc` from `0xFFFE/0xFFFF`. -/
def brk (s : Cpu) : Nat × Cpu :=
  let s := { s with pc := wrap16 (s.pc + 1) }
  let s := set_flag s INTERRUPT_DISABLE true
  let s := write s (0x0100 + s.stkp) ((s.pc >>> 8) &&& 0x00FF)
  let s := { s with stkp := wrap8 (s.stkp + 255) }
  let s := write s (0x0100 + s.stkp) (s.pc &&& 0x00FF)
  let s := { s with stkp := wrap8 (s.stkp + 255) }
  let s := set_flag s BREAK true
  let s := write s (0x0100 + s.stkp) s.status
  let s := { s with stkp := wrap8 (s.stkp + 255) }
  let s := set_flag s BREAK false
  (0, { s with pc := read s 0xFFFE ||| (read s 0xFFFF <<< 8) })

/-- Iterated `clock`. -/
def clockN : Nat → Cpu → Cpu
  | 0, s => s
  | n + 1, s => clock (clockN n s)

/-- Iterated `pha` (ignoring the returned flag, which is always 0). -/
def phaN : Nat → Cpu → Cpu
  | 0, s => s
  | n + 1, s => (pha (phaN n s)).2

/-- Iterated `pla` (ignoring the returned flag, which is always 0). -/
def plaN : Nat → Cpu → Cpu
  | 0, s => s
  | n + 1, s => (pla (plaN n s)).2

/-- RAM image of the spec's first end-to-end scenario: all zero except
`0x8000 = 0xA9`, `0x8001 = 0x42` (LDA #$42) and the reset vector
`0xFFFC = 0x00`, `0xFFFD = 0x80`. -/
def ramLDA : Nat → Nat := fun i =>
  if i = 0x8000 then 0xA9
  else if i = 0x8001 then 0x42
  else if i = 0xFFFD then 0x80
  else 0

/-- Cpu::new over a given RAM image: all registers and latches zero, the
status register with every flag set (`StatusFlags::all()`), `cycles = 0`. -/
def powerOn (m : Nat → Nat) : Cpu :=
  { a := 0, x := 0, y := 0, stkp := 0, pc := 0, status := 255,
    fetched := 0, addr_abs := 0, addr_rel := 0, opcode := 0, cycles := 0,
    ram := m }

/-- A state about to execute LDA #$42 at `0x8000`: `cycles = 0`,
`pc = 0x8000`, registers and flags clear, over `ramLDA`. -/
def sLDA : Cpu :=
  { powerOn ramLDA with pc := 0x8000, status := 0, stkp := 0xFD }

/-- A state about to execute the Implied-mode opcode `0xEA` (NOP) with
`fetched` and `a` holding distinct values. -/
def sImp : Cpu :=
  { powerOn (fun i => if i = 0x9000 then 0xEA else 0) with
      pc := 0x9000, status := 0, stkp := 0xFD, fetched := 0x55, a := 0x77 }

/-- A state whose next two bytes form the pointer `0x0010`, with the pointed-to
word `0x1234` stored little-endian at `0x0010/0x0011`. -/
def sInd : Cpu :=
  { powerOn (fun i =>
      if i = 0x8000 then 0x10
      else if i = 0x8001 then 0x00
      else if i = 0x0010 then 0x34
      else if i = 0x0011 then 0x12
      else 0) with
    pc := 0x8000 }

/-- A state whose pointer operand is `0x02FF` (low byte `0xFF`), with
`0x02FF = 0x78`, `0x0200 = 0x56` (the page-wrapped high-byte cell) and
`0x0300 = 0x99` (the cell the wrap must avoid). -/
def sIndWrap : Cpu :=
  { powerOn (fun i =>
      if i = 0x8000 then 0xFF
      else if i = 0x8001 then 0x02
      else if i = 0x02FF then 0x78
      else if i = 0x0200 then 0x56
      else if i = 0x0300 then 0x99
      else 0) with
    pc := 0x8000 }

/-- A state entering the IMM decoder with the operand byte at `0x8001`. -/
def sImm : Cpu :=
  { powerOn ramLDA with pc := 0x8001 }

/-- A state with the interrupt-disable flag set, for exercising `irq`. -/
def sMasked : Cpu :=
  { powerOn ramLDA with status := INTERRUPT_DISABLE, pc := 0x8000, stkp := 0xFD }

/-- The all-zero RAM power-on state. -/
def sZero : Cpu := powerOn (fun _ => 0)

/-- A state mid-instruction, with 5 cycles left to burn. -/
def sBusy : Cpu := { powerOn ramLDA with cycles := 5, pc := 0x8002 }

/-- C1: the claim requires `clock()` at `cycles == 0` to invoke the table
entry's operation and let its state changes take effect; the code hardcodes
the operation's flag to 0 and never calls the operation.  On a state about to
execute LDA #$42 the code fetches the opcode, runs the IMM decoder and charges
cycles, but leaves the accumulator and flags untouched (LDA would have set
`a := 0x42`). -/
theorem clock_does_not_invoke_operation :
    (clock sLDA).opcode = 0xA9 ∧ (clock sLDA).pc = 0x8002 ∧
    (clock sLDA).cycles = 1 ∧ (clock sLDA).a = 0 ∧ (clock sLDA).status = 0 := by
  decide

/-- C2: in the spec's first scenario (reset into `0x8000`, drain the 8 reset
cycles, then retire LDA #$42 with two clocks) the claim expects `a = 0x42`;
the code reaches `pc = 0x8002` with Z and N clear but leaves `a = 0x00`
because the operation is never invoked. -/
theorem lda_scenario_accumulator_unchanged :
    (clockN 10 (reset (powerOn ramLDA))).pc = 0x8002 ∧
    (clockN 10 (reset (powerOn ramLDA))).a = 0 ∧
    (clockN 10 (reset (powerOn ramLDA))).status = 0 ∧
    (clockN 10 (reset (powerOn ramLDA))).cycles = 0 := by
  decide

/-- C3: the claim requires `reset()` to leave exactly the U flag (bit 5) set
in `p`; the code assigns `StatusFlags::empty()`, so the status register is 0
and bit 5 is clear.  Every other conjunct of the claim holds. -/
theorem reset_clears_unused_flag :
    (reset (powerOn ramLDA)).status = 0 ∧
    (reset (powerOn ramLDA)).status &&& UNUSED = 0 ∧
    (reset (powerOn ramLDA)).a = 0 ∧ (reset (powerOn ramLDA)).x = 0 ∧
    (reset (powerOn ramLDA)).y = 0 ∧ (reset (powerOn ramLDA)).stkp = 0xFD ∧
    (reset (powerOn ramLDA)).pc = 0x8000 ∧
    (reset (powerOn ramLDA)).fetched = 0 ∧
    (reset (powerOn ramLDA)).addr_abs = 0 ∧
    (reset (powerOn ramLDA)).addr_rel = 0 ∧
    (reset (powerOn ramLDA)).cycles = 8 := by
  decide

/-- C4: the claim requires `addr_abs = (hi << 8) | lo = 0x1234` for the
pointer `0x0010`, and `0x5678` for the page-wrap pointer `0x02FF`; because the
source computes the shift at `u8` width, the code instead produces
`hi | lo` (`0x36` and `0x7E` respectively), never exceeding `0xFF`. -/
theorem addr_ind_high_byte_lost :
    (addr_ind sInd).2.addr_abs = 0x36 ∧
    (addr_ind sIndWrap).2.addr_abs = 0x7E := by
  decide

/-- C5: the claim requires the IMM decoder to latch the entry `pc` (the
operand's address, here `0x8001`) into `addr_abs` and then advance `pc`; the
code increments `pc` first and latches the incremented value, so `addr_abs`
points one past the operand byte. -/
theorem addr_imm_latches_incremented_pc :
    (addr_imm sImm).2.addr_abs = 0x8002 ∧ (addr_imm sImm).2.pc = 0x8002 := by
  decide

/-- C6: the claim requires the decoder run by `clock()` for an IMP-mode entry
(opcode `0xEA`) to set `fetched := a`; `get_operand_address` returns 0 for
`Implied` without calling `addr_imp`, so `fetched` keeps its stale value
(`0x55`) instead of the accumulator (`0x77`). -/
theorem implied_mode_does_not_latch_accumulator :
    (clock sImp).fetched = 0x55 ∧ (clock sImp).a = 0x77 ∧
    (clock sImp).opcode = 0xEA := by
  decide

/-- C7: when the interrupt-disable flag is set, `irq()` is a no-op: the whole
state, memory included, is returned unchanged. -/
theorem irq_masked_noop (s : Cpu) (h : get_flag s INTERRUPT_DISABLE = true) :
    irq s = s := by
  simp [irq, h]

/-- Witness for C7 at a concrete masked state. -/
theorem irq_masked_noop_witness : irq sMasked = sMasked :=
  irq_masked_noop sMasked (by decide)

/-- C8: the claim requires every status byte pushed to the stack to have bit 5
(U) set.  After `reset()` the status register is 0; `brk` then pushes
`status | I | B = 0x14` at `0x01FB` without forcing U, so the pushed copy of
`p` has bit 5 clear. -/
theorem brk_pushes_status_without_unused :
    (brk (reset sZero)).2.ram 0x01FB = 0x14 ∧
    (brk (reset sZero)).2.ram 0x01FB &&& UNUSED = 0 ∧
    (brk (reset sZero)).2.stkp = 0xFA := by
  decide

/-- Setting a flag never changes the accumulator. -/
theorem set_flag_a (s : Cpu) (f : Nat) (v : Bool) : (set_flag s f v).a = s.a := by
  unfold set_flag; split <;> rfl

/-- Setting a flag never changes the stack pointer. -/
theorem set_flag_stkp (s : Cpu) (f : Nat) (v : Bool) :
    (set_flag s f v).stkp = s.stkp := by
  unfold set_flag; split <;> rfl

/-- Setting a flag never changes memory. -/
theorem set_flag_ram (s : Cpu) (f : Nat) (v : Bool) :
    (set_flag s f v).ram = s.ram := by
  unfold set_flag; split <;> rfl

/-- `pha` leaves the accumulator unchanged. -/
theorem pha_a (s : Cpu) : (pha s).2.a = s.a := rfl

/-- `pha` decrements the stack pointer, wrapping at 8 bits. -/
theorem pha_stkp (s : Cpu) : (pha s).2.stkp = wrap8 (s.stkp + 255) := rfl

/-- Memory after `pha`: the accumulator lands at `0x0100 + stkp`, everything
else is untouched. -/
theorem pha_ram (s : Cpu) (addr : Nat) :
    (pha s).2.ram addr = if addr = 0x0100 + s.stkp then s.a else s.ram addr := rfl

/-- `pla` increments the stack pointer, wrapping at 8 bits. -/
theorem pla_stkp (s : Cpu) : (pla s).2.stkp = wrap8 (s.stkp + 1) := by
  simp [pla, set_flag_stkp]

/-- `pla` does not write memory. -/
theorem pla_ram (s : Cpu) : (pla s).2.ram = s.ram := by
  simp [pla, set_flag_ram]

/-- `pla` loads the accumulator from `0x0100 +` the incremented stack
pointer. -/
theorem pla_a (s : Cpu) : (pla s).2.a = s.ram (0x0100 + wrap8 (s.stkp + 1)) := by
  simp [pla, set_flag_a, read]

/-- Iterated `pha` leaves the accumulator unchanged. -/
theorem phaN_a (s : Cpu) : ∀ n, (phaN n s).a = s.a := by
  intro n
  induction n with
  | zero => rfl
  | succ n ih => rw [phaN, pha_a, ih]

/-- Stack pointer after `n ≤ 256` pushes: it has moved down by `n`, modulo
256. -/
theorem phaN_stkp (s : Cpu) (h : s.stkp < 256) :
    ∀ n, n ≤ 256 → (phaN n s).stkp = (s.stkp + 256 - n) % 256 := by
  intro n
  induction n with
  | zero =>
      intro _
      show s.stkp = (s.stkp + 256 - 0) % 256
      omega
  | succ n ih =>
      intro hn
      have hn' : n ≤ 256 := by omega
      rw [phaN, pha_stkp, ih hn', wrap8]
      omega

/-- After `n ≤ 256` pushes, every cell written so far (the `k`-th push went to
`0x0100 + (stkp − k mod 256)`) holds the accumulator. -/
theorem phaN_ram_cover (s : Cpu) (h : s.stkp < 256) :
    ∀ n, n ≤ 256 → ∀ k, k < n →
      (phaN n s).ram (0x0100 + (s.stkp + 256 - k) % 256) = s.a := by
  intro n
  induction n with
  | zero => intro _ k hk; omega
  | succ n ih =>
      intro hn k hk
      have hn' : n ≤ 256 := by omega
      rw [phaN, pha_ram]
      by_cases he :
          (0x0100 + (s.stkp + 256 - k) % 256) = 0x0100 + (phaN n s).stkp
      · rw [if_pos he, phaN_a]
      · rw [if_neg he]
        have hs := phaN_stkp s h n hn'
        by_cases hkn : k = n
        · exact absurd (by rw [hs, hkn]) he
        · exact ih hn' k (by omega)

/-- After 256 pushes the whole stack page holds the accumulator. -/
theorem phaN_page (s : Cpu) (h : s.stkp < 256) :
    ∀ j, j < 256 → (phaN 256 s).ram (0x0100 + j) = s.a := by
  intro j hj
  have hk : (s.stkp + 256 - j) % 256 < 256 := Nat.mod_lt _ (by omega)
  have he : (s.stkp + 256 - (s.stkp + 256 - j) % 256) % 256 = j := by omega
  have hc := phaN_ram_cover s h 256 (le_refl 256) ((s.stkp + 256 - j) % 256) hk
  rw [he] at hc
  exact hc

/-- Iterated `pla` does not write memory. -/
theorem plaN_ram (s : Cpu) : ∀ n, (plaN n s).ram = s.ram := by
  intro n
  induction n with
  | zero => rfl
  | succ n ih => rw [plaN, pla_ram, ih]

/-- Stack pointer after `n` pops: it has moved up by `n`, modulo 256. -/
theorem plaN_stkp (s : Cpu) (h : s.stkp < 256) :
    ∀ n, (plaN n s).stkp = (s.stkp + n) % 256 := by
  intro n
  induction n with
  | zero =>
      show s.stkp = (s.stkp + 0) % 256
      omega
  | succ n ih =>
      rw [plaN, pla_stkp, ih, wrap8]
      omega

/-- When the whole stack page holds the value `v`, any positive number of pops
leaves `v` in the accumulator. -/
theorem plaN_a (s : Cpu) (v : Nat)
    (hpage : ∀ j, j < 256 → s.ram (0x0100 + j) = v) :
    ∀ n, 0 < n → (plaN n s).a = v := by
  intro n hn
  obtain ⟨m, rfl⟩ : ∃ m, n = m + 1 := ⟨n - 1, by omega⟩
  rw [plaN, pla_a, plaN_ram]
  exact hpage _ (by unfold wrap8; omega)

/-- C9: 256 consecutive PHA operations followed by 256 PLA operations wrap the
stack pointer around page 1 (no trap) and restore both `sp` and `a` to their
initial values, for every 8-bit initial stack pointer, accumulator and memory
image. -/
theorem stack_wrap_pha_pla (s : Cpu) (h : s.stkp < 256) :
    (plaN 256 (phaN 256 s)).stkp = s.stkp ∧
    (plaN 256 (phaN 256 s)).a = s.a := by
  have hstk : (phaN 256 s).stkp = s.stkp := by
    rw [phaN_stkp s h 256 (le_refl 256)]
    omega
  have hstk' : (phaN 256 s).stkp < 256 := by rw [hstk]; exact h
  constructor
  · rw [plaN_stkp (phaN 256 s) hstk' 256, hstk]
    omega
  · exact plaN_a (phaN 256 s) s.a (phaN_page s h) 256 (by omega)

/-- A concrete state for the stack-wrap witness. -/
def sWrap : Cpu := { powerOn ramLDA with stkp := 3, a := 0xAB }

/-- Witness for C9 at a concrete state. -/
theorem stack_wrap_pha_pla_witness :
    sWrap.stkp < 256 ∧
    ((plaN 256 (phaN 256 sWrap)).stkp = sWrap.stkp ∧
      (plaN 256 (phaN 256 sWrap)).a = sWrap.a) :=
  ⟨by decide, stack_wrap_pha_pla sWrap (by decide)⟩

/-- C10: a `clock()` call on a state with cycles remaining only decrements the
`cycles` field by one; every other field, memory included, is unchanged.  The
bounds reflect the `u8` type of `cycles`. -/
theorem clock_busy_only_decrements (s : Cpu) (h1 : s.cycles ≠ 0)
    (h2 : s.cycles < 256) : clock s = { s with cycles := s.cycles - 1 } := by
  have e : wrap8 (s.cycles + 255) = s.cycles - 1 := by
    unfold wrap8; omega
  simp [clock, h1, e]

/-- Witness for C10 at a concrete mid-instruction state. -/
theorem clock_busy_only_decrements_witness :
    clock sBusy = { sBusy with cycles := sBusy.cycles - 1 } :=
  clock_busy_only_decrements sBusy (by decide) (by decide)

end Nes
